import Mathlib

/-!
Shallow embedding of the AiRA web-aware RAG orchestration core
(app/database.py, app/queue.py, app/scraper.py, app/llm.py, app/main.py,
worker.py).  The SQLite `urls` table becomes a list of records, ISO
timestamps become abstract clock ticks, the Redis list becomes a list of
job payloads, and the external collaborators (HTTP fetch + text
extraction, the vector store, the OpenAI client) are oracle functions
returning `Except`.
-/

namespace AiRA

/-- One row of the `urls` table created by `MetadataDB.init_db`:
`id INTEGER PRIMARY KEY AUTOINCREMENT, url TEXT UNIQUE, status, created_at,
updated_at, error_message, chunks_count INTEGER DEFAULT 0`. -/
structure UrlRecord where
  id : Nat
  url : String
  status : String
  created_at : Nat
  updated_at : Nat
  error_message : Option String
  chunks_count : Nat
  deriving DecidableEq, Repr

/-- `MetadataDB.get_url_status`: `SELECT * FROM urls WHERE url = ?`,
returning the row as a record or `None`. -/
def get_url_status (db : List UrlRecord) (url : String) : Option UrlRecord :=
  db.find? (fun r => r.url == url)

/-- `MetadataDB.add_url`: try `INSERT INTO urls (url, status, created_at,
updated_at) VALUES (?, "pending", now, now)` and return `lastrowid`; on
`IntegrityError` (the `UNIQUE` constraint on `url`) return the existing
row's id and change nothing.  `lastrowid` of an AUTOINCREMENT table that
rows are only ever added to is modelled as `db.length + 1` (ids `1..n`). -/
def add_url (db : List UrlRecord) (url : String) (now : Nat) : Nat × List UrlRecord :=
  match get_url_status db url with
  | some r => (r.id, db)
  | none => (db.length + 1, db ++ [⟨db.length + 1, url, "pending", now, now, none, 0⟩])

/-- The per-row effect of `MetadataDB.update_status`'s `UPDATE ... WHERE
url = ?`: a row whose `url` matches gets `status`, `updated_at`,
`error_message`, `chunks_count` overwritten; any other row is untouched. -/
def updFn (url status : String) (em : Option String) (cc now : Nat) (r : UrlRecord) : UrlRecord :=
  if r.url = url then ⟨r.id, r.url, status, r.created_at, now, em, cc⟩ else r

/-- `MetadataDB.update_status(url, status, error_message=None,
chunks_count=0)`: `UPDATE urls SET status = ?, updated_at = ?,
error_message = ?, chunks_count = ? WHERE url = ?`.  The Python defaults
are supplied explicitly by each call site in this embedding. -/
def update_status (db : List UrlRecord) (url status : String) (em : Option String) (cc now : Nat) : List UrlRecord :=
  db.map (updFn url status em cc now)

/-- `RedisQueue.enqueue`: `rpush` of the job payload `{"url": url}`,
modelled as appending the url to the tail of the list. -/
def enqueue (q : List String) (url : String) : List String :=
  q ++ [url]

/-- `RedisQueue.dequeue`: `blpop(queue, timeout=1)`; when the list is
empty the poll times out and the method returns `None`, otherwise the
head job is removed and parsed. -/
def dequeue (q : List String) : Option String × List String :=
  match q with
  | [] => (none, [])
  | j :: rest => (some j, rest)

/-- The shared state the API process and the worker coordinate through:
the `urls` table and the Redis job list. -/
structure AppState where
  db : List UrlRecord
  queue : List String
  deriving DecidableEq, Repr

/-- The success path of the `POST /ingest-url` handler `ingest_url` in
`app/main.py`: `job_id = db.add_url(url)` followed unconditionally by
`queue.enqueue(url)`; the returned value is the `job_id` of the 202
response. -/
def ingest_url (s : AppState) (url : String) (now : Nat) : Nat × AppState :=
  match add_url s.db url now with
  | (jobId, db2) => (jobId, ⟨db2, enqueue s.queue url⟩)

/-- Python `' '.join(ws)`. -/
def joinWith (sep : String) : List String → String
  | [] => ""
  | [w] => w
  | w :: x :: ws => w ++ sep ++ joinWith sep (x :: ws)

/-- The index sequence `range(0, n, step)` of `WebScraper.chunk_text`
for a positive `step`: `0, step, 2*step, ...` strictly below `n`. -/
def strideIndices (n step : Nat) : List Nat :=
  (List.range ((n + step - 1) / step)).map (fun k => k * step)

/-- `WebScraper.chunk_text(text, chunk_size, overlap)` on the word list
`words = text.split()`:
`for i in range(0, len(words), chunk_size - overlap):` append
`' '.join(words[i:i+chunk_size])` if that string is nonempty.
Python `range` with step `0` raises `ValueError` at run time, and with a
negative step (from `0` upward) is empty, so the whole text is silently
dropped.  `chunk_size` is assumed nonnegative, as at every call site. -/
def chunk_text (words : List String) (chunk_size overlap : Int) : Except String (List String) :=
  if chunk_size - overlap = 0 then
    Except.error "range() arg 3 must not be zero"
  else if chunk_size - overlap < 0 then
    Except.ok []
  else
    Except.ok (((strideIndices words.length (chunk_size - overlap).toNat).map
      (fun i => joinWith " " ((words.drop i).take chunk_size.toNat))).filter
        (fun c => c != ""))

/-- The word-level slices underlying `chunk_text`'s windows: the window
starting at each stride index, `chunk_size` words long at most. -/
def wordSlices (words : List String) (chunk_size step : Nat) : List (List String) :=
  (strideIndices words.length step).map (fun i => (words.drop i).take chunk_size)

/-- The per-chunk metadata dict built by `WebScraper.process_url`. -/
structure ChunkMeta where
  url : String
  chunk_index : Nat
  total_chunks : Nat
  deriving DecidableEq, Repr

/-- `WebScraper.process_url`: fetch and extract the page text (external
collaborator, modelled as an oracle from the url to the extracted word
list or an error), chunk it with the default parameters `500, 50`, and
attach `{"url": url, "chunk_index": i, "total_chunks": len(chunks)}` to
each chunk. -/
def process_url (fetchWords : String → Except String (List String)) (url : String) :
    Except String (List String × List ChunkMeta) :=
  match fetchWords url with
  | Except.error e => Except.error e
  | Except.ok ws =>
    match chunk_text ws 500 50 with
    | Except.error e => Except.error e
    | Except.ok chunks =>
        Except.ok (chunks, (List.range chunks.length).map (fun i => ⟨url, i, chunks.length⟩))

/-- One pass of the worker loop body in `worker.py` `main` after
initialisation: dequeue; if a job arrived, set its url to `processing`,
run `scraper.process_url` and `vector_store.add_documents` (both
external, modelled as oracles), then set `completed` with the chunk
count, or `failed` with the exception text if either step raised.  `t1`
and `t2` are the clock ticks of the two status writes. -/
def worker_iteration (s : AppState)
    (scrape : String → Except String (List String × List ChunkMeta))
    (store : List String → List ChunkMeta → String → Except String Unit)
    (t1 t2 : Nat) : AppState :=
  match dequeue s.queue with
  | (none, q2) => ⟨s.db, q2⟩
  | (some url, q2) =>
    let db1 := update_status s.db url "processing" none 0 t1
    match scrape url with
    | Except.error e => ⟨update_status db1 url "failed" (some e) 0 t2, q2⟩
    | Except.ok (chunks, metas) =>
      match store chunks metas url with
      | Except.error e => ⟨update_status db1 url "failed" (some e) 0 t2, q2⟩
      | Except.ok _ => ⟨update_status db1 url "completed" none chunks.length t2, q2⟩

/-- A chunk returned by similarity search, as consumed by
`LLMHandler`: `chunk['content']` and `chunk['metadata']['url']`. -/
structure RetrievedChunk where
  content : String
  url : String
  deriving DecidableEq, Repr

/-- The f-string `"Source {i+1} (from {url}):\n{content}"` labelling one
retrieved chunk inside the grounding context. -/
def sourceLabel (i : Nat) (c : RetrievedChunk) : String :=
  "Source " ++ toString (i + 1) ++ " (from " ++ c.url ++ "):\n" ++ c.content

/-- The context block of `LLMHandler.generate_answer`: the labelled
chunks joined by blank lines. -/
def build_context (chunks : List RetrievedChunk) : String :=
  joinWith "\n\n" (chunks.enum.map (fun p => sourceLabel p.1 p.2))

/-- The user prompt of `LLMHandler.generate_answer`. -/
def mkPrompt (context query : String) : String :=
  "You are a helpful assistant that answers questions based on the provided context.\nUse only the information from the context below to answer the question. If you cannot answer the question based on the context, say so.\n\nContext:\n"
    ++ context ++ "\n\nQuestion: " ++ query ++ "\n\nAnswer:"

/-- `LLMHandler.generate_answer`: build the grounding prompt, call the
chat-completion collaborator (an oracle from the prompt to the answer
text or a raised error), and on any exception return the literal string
`f"Error generating answer: {e}"` instead of propagating. -/
def generate_answer (llm : String → Except String String) (query : String)
    (chunks : List RetrievedChunk) : String :=
  match llm (mkPrompt (build_context chunks) query) with
  | Except.ok answer => answer
  | Except.error e => "Error generating answer: " ++ e

/-- `LLMHandler.generate_answer_with_sources`: the generated answer plus
`sources = list(set(urls))` and `num_sources = len(sources)`.  Python's
set iteration order is unspecified; the set is modelled as `List.dedup`,
and every property claimed of it is stated up to set semantics. -/
def generate_answer_with_sources (llm : String → Except String String) (query : String)
    (chunks : List RetrievedChunk) : String × List String × Nat :=
  let answer := generate_answer llm query chunks
  let sources := (chunks.map (fun c => c.url)).dedup
  (answer, sources, sources.length)

lemma updFn_url (url st : String) (em : Option String) (cc now : Nat) (r : UrlRecord) :
    (updFn url st em cc now r).url = r.url := by
  unfold updFn
  split <;> rfl

/-- Looking a url up after `update_status` sees the per-row effect of the
`UPDATE` applied to whatever the lookup saw before. -/
lemma get_update (db : List UrlRecord) (u url st : String) (em : Option String) (cc now : Nat) :
    get_url_status (update_status db url st em cc now) u =
      (get_url_status db u).map (updFn url st em cc now) := by
  unfold get_url_status update_status
  rw [List.find?_map]
  have h : ((fun r : UrlRecord => r.url == u) ∘ updFn url st em cc now) =
      (fun r : UrlRecord => r.url == u) := by
    funext r
    simp [Function.comp, updFn_url]
  rw [h]

lemma get_url_of_some {db : List UrlRecord} {url : String} {r : UrlRecord}
    (h : get_url_status db url = some r) : r.url = url := by
  unfold get_url_status at h
  have hp := List.find?_some h
  simpa using hp

/-- Claim C5: for every URL present in the status store, `update_status`
overwrites exactly `status`, `updated_at`, `error_message` and
`chunks_count` of that URL's record, leaves its `id`, `url` and
`created_at` unchanged, and leaves every other URL's record unchanged. -/
theorem c5_update_status_frame (db : List UrlRecord) (url st : String) (em : Option String)
    (cc now : Nat) (r : UrlRecord) (hr : get_url_status db url = some r) :
    get_url_status (update_status db url st em cc now) url =
      some ⟨r.id, r.url, st, r.created_at, now, em, cc⟩ ∧
    ∀ u, u ≠ url → get_url_status (update_status db url st em cc now) u = get_url_status db u := by
  have hurl : r.url = url := get_url_of_some hr
  constructor
  · rw [get_update, hr]
    simp [updFn, hurl]
  · intro u hu
    rw [get_update]
    cases hq : get_url_status db u with
    | none => rfl
    | some r2 =>
      have h2 : r2.url = u := get_url_of_some hq
      have h3 : r2.url ≠ url := by rw [h2]; exact hu
      simp [updFn, h3]

/-- Claim C5 witness: a two-row store, updating the first row. -/
theorem c5_update_status_frame_witness :
    get_url_status [⟨1, "https://a", "pending", 0, 0, none, 0⟩,
        ⟨2, "https://b", "pending", 0, 0, none, 0⟩] "https://a" =
      some ⟨1, "https://a", "pending", 0, 0, none, 0⟩ ∧
    (get_url_status (update_status [⟨1, "https://a", "pending", 0, 0, none, 0⟩,
          ⟨2, "https://b", "pending", 0, 0, none, 0⟩] "https://a" "completed" none 7 3) "https://a" =
        some ⟨1, "https://a", "completed", 0, 3, none, 7⟩ ∧
      ∀ u, u ≠ "https://a" →
        get_url_status (update_status [⟨1, "https://a", "pending", 0, 0, none, 0⟩,
            ⟨2, "https://b", "pending", 0, 0, none, 0⟩] "https://a" "completed" none 7 3) u =
          get_url_status [⟨1, "https://a", "pending", 0, 0, none, 0⟩,
            ⟨2, "https://b", "pending", 0, 0, none, 0⟩] u) :=
  ⟨rfl, c5_update_status_frame
    [⟨1, "https://a", "pending", 0, 0, none, 0⟩, ⟨2, "https://b", "pending", 0, 0, none, 0⟩]
    "https://a" "completed" none 7 3 ⟨1, "https://a", "pending", 0, 0, none, 0⟩ rfl⟩

/-- Claim C10: for every URL with no record in the store,
`update_status` returns normally and leaves the store unchanged: no row
matches the `WHERE url = ?`, so nothing is created or modified and no
error is raised. -/
theorem c10_update_status_absent_noop (db : List UrlRecord) (url st : String)
    (em : Option String) (cc now : Nat) (h : get_url_status db url = none) :
    update_status db url st em cc now = db := by
  unfold get_url_status at h
  rw [List.find?_eq_none] at h
  unfold update_status
  have hid : ∀ r ∈ db, updFn url st em cc now r = r := by
    intro r hrm
    have hne : ¬(r.url == url) = true := h r hrm
    have hne2 : r.url ≠ url := by simpa using hne
    simp [updFn, hne2]
  have hmap : db.map (updFn url st em cc now) = db.map (fun r => r) :=
    List.map_congr_left hid
  rw [hmap, List.map_id']

/-- Claim C10 witness: updating a url absent from a one-row store. -/
theorem c10_update_status_absent_noop_witness :
    get_url_status [⟨1, "https://a", "pending", 0, 0, none, 0⟩] "https://b" = none ∧
    update_status [⟨1, "https://a", "pending", 0, 0, none, 0⟩] "https://b" "failed"
        (some "boom") 0 9 = [⟨1, "https://a", "pending", 0, 0, none, 0⟩] :=
  ⟨rfl, c10_update_status_absent_noop _ "https://b" "failed" (some "boom") 0 9 rfl⟩

/-- Claim C1 counterexample: submitting the same URL twice through the
ingest endpoint does enqueue a second job: starting from an empty state,
after two submissions the queue holds two jobs for the URL, refuting
"does not enqueue a second job for it". -/
theorem c1_resubmission_enqueues_again :
    (((ingest_url ((ingest_url ⟨[], []⟩ "https://example.com/a" 0).2)
        "https://example.com/a" 1).2).queue
      = ["https://example.com/a", "https://example.com/a"]) ∧
    ¬(((ingest_url ((ingest_url ⟨[], []⟩ "https://example.com/a" 0).2)
        "https://example.com/a" 1).2).queue.count "https://example.com/a" ≤ 1) := by
  constructor
  · rfl
  · decide

/-- Claim C1 as amended: re-submitting a URL that already has a record
returns the existing record's identifier and leaves exactly one record
for that URL, but each submission appends a fresh job to the queue, so
the second submission does re-enqueue the URL. -/
theorem c1_idempotent_record_but_reenqueued (s : AppState) (url : String) (t1 t2 : Nat)
    (h : get_url_status s.db url = none) :
    (ingest_url (ingest_url s url t1).2 url t2).1 = (ingest_url s url t1).1 ∧
    (((ingest_url (ingest_url s url t1).2 url t2).2).db.filter
        (fun r => r.url == url)).length = 1 ∧
    ((ingest_url (ingest_url s url t1).2 url t2).2).queue = s.queue ++ [url, url] := by
  have hfil : s.db.filter (fun r => r.url == url) = [] := by
    rw [List.filter_eq_nil_iff]
    intro r hrm
    unfold get_url_status at h
    rw [List.find?_eq_none] at h
    exact h r hrm
  have hfind2 : get_url_status
      (s.db ++ [⟨s.db.length + 1, url, "pending", t1, t1, none, 0⟩]) url =
      some ⟨s.db.length + 1, url, "pending", t1, t1, none, 0⟩ := by
    unfold get_url_status at h ⊢
    rw [List.find?_append, h]
    simp
  simp only [ingest_url, add_url, h, hfind2, enqueue]
  refine ⟨by trivial, ?_, by simp⟩
  rw [List.filter_append, hfil]
  simp

/-- Claim C1 witness (amended form): two submissions of the same URL to
the empty state. -/
theorem c1_idempotent_record_but_reenqueued_witness :
    get_url_status (([] : List UrlRecord)) "https://example.com/a" = none ∧
    ((ingest_url (ingest_url ⟨[], []⟩ "https://example.com/a" 0).2 "https://example.com/a" 1).1 =
        (ingest_url ⟨[], []⟩ "https://example.com/a" 0).1 ∧
      (((ingest_url (ingest_url ⟨[], []⟩ "https://example.com/a" 0).2 "https://example.com/a" 1).2).db.filter
          (fun r => r.url == "https://example.com/a")).length = 1 ∧
      ((ingest_url (ingest_url ⟨[], []⟩ "https://example.com/a" 0).2 "https://example.com/a" 1).2).queue =
        [] ++ ["https://example.com/a", "https://example.com/a"]) :=
  ⟨rfl, c1_idempotent_record_but_reenqueued ⟨[], []⟩ "https://example.com/a" 0 1 rfl⟩

/-- Claim C7: `generate_answer_with_sources` returns `sources` equal, as
a set, to the distinct source URLs among the retrieved chunks, with no
duplicates, and `num_sources` equal to that set's cardinality; in
particular for chunks from URLs A, A, B the sources set is the pair set
of A and B and `num_sources = 2`. -/
theorem c7_source_aggregation :
    (∀ (llm : String → Except String String) (query : String) (chunks : List RetrievedChunk),
      (generate_answer_with_sources llm query chunks).2.1.toFinset
          = (chunks.map (fun c => c.url)).toFinset ∧
      (generate_answer_with_sources llm query chunks).2.1.Nodup ∧
      (generate_answer_with_sources llm query chunks).2.2
          = (chunks.map (fun c => c.url)).toFinset.card) ∧
    (generate_answer_with_sources (fun _ => Except.error "no key") "q"
        [⟨"c1", "https://A"⟩, ⟨"c2", "https://A"⟩, ⟨"c3", "https://B"⟩]).2.1.toFinset
      = ({"https://A", "https://B"} : Finset String) ∧
    (generate_answer_with_sources (fun _ => Except.error "no key") "q"
        [⟨"c1", "https://A"⟩, ⟨"c2", "https://A"⟩, ⟨"c3", "https://B"⟩]).2.2 = 2 := by
  refine ⟨fun llm query chunks => ⟨?_, ?_, ?_⟩, ?_, ?_⟩
  · exact List.toFinset.ext (fun x => by simp [generate_answer_with_sources])
  · simpa [generate_answer_with_sources] using
      List.nodup_dedup (chunks.map (fun c => c.url))
  · simp [generate_answer_with_sources, List.card_toFinset]
  · decide
  · rfl

/-- Claim C9: dequeuing from an empty queue returns the distinguished
value `none` after the poll timeout elapses, rather than raising an
error, for every state in which the queue holds no jobs. -/
theorem c9_dequeue_empty_returns_none : dequeue [] = (none, []) := rfl

/-- Claim C3 (failing input): the chunker performs no configuration-time
validation: calling `chunk_text` with `overlap = chunk_size = 500` on a
one-word text reaches the chunking loop and raises `ValueError` from
`range()` at run time, contrary to the required configuration-time
rejection. -/
theorem c3_no_configuration_rejection :
    chunk_text ["a"] 500 500 = Except.error "range() arg 3 must not be zero" ∧
    chunk_text ["a"] 500 600 = Except.ok [] := by
  constructor <;> rfl

/-- Claim C6: if the generation collaborator's call raises, then
`generate_answer` returns the literal error string describing the
failure instead of propagating the exception, so the query pipeline's
answer field is always set. -/
theorem c6_generation_fallback (llm : String → Except String String) (query : String)
    (chunks : List RetrievedChunk) (e : String) (hne : chunks ≠ [])
    (hfail : llm (mkPrompt (build_context chunks) query) = Except.error e) :
    generate_answer llm query chunks = "Error generating answer: " ++ e := by
  unfold generate_answer
  rw [hfail]

/-- Claim C6 witness: a concrete collaborator that always raises, on one
retrieved chunk. -/
theorem c6_generation_fallback_witness :
    ([(⟨"some content", "https://a"⟩ : RetrievedChunk)] ≠ []) ∧
    generate_answer (fun _ => Except.error "rate limit") "q" [⟨"some content", "https://a"⟩] =
      "Error generating answer: rate limit" := by
  refine ⟨by simp, ?_⟩
  exact c6_generation_fallback (fun _ => Except.error "rate limit") "q"
    [⟨"some content", "https://a"⟩] "rate limit" (by simp) rfl

lemma joinWith_ne_empty (l : List String) (hne : l ≠ []) (hw : ∀ w ∈ l, w ≠ "") :
    joinWith " " l ≠ "" := by
  match l, hne with
  | [w], _ => exact hw w (by simp)
  | w :: x :: ws, _ =>
    intro hcontra
    have hlen := congrArg String.length hcontra
    have hsp : (" " : String).length = 1 := by decide
    simp [joinWith, String.length_append, hsp] at hlen

lemma chunk_text_pos (words : List String) (cs ov : Int) (h : 0 < cs - ov) :
    chunk_text words cs ov =
      Except.ok (((wordSlices words cs.toNat (cs - ov).toNat).map (joinWith " ")).filter
        (fun c => c != "")) := by
  unfold chunk_text wordSlices
  rw [if_neg (by omega), if_neg (by omega), List.map_map]
  rfl

lemma chunk_text_500_50 (words : List String) :
    chunk_text words 500 50 =
      Except.ok (((wordSlices words 500 450).map (joinWith " ")).filter
        (fun c => c != "")) := by
  have h1 : ((500 : Int) - 50).toNat = 450 := by decide
  have h2 : ((500 : Int)).toNat = 500 := by decide
  have h := chunk_text_pos words 500 50 (by decide)
  rw [h1, h2] at h
  exact h

lemma mem_stride_lt (n st i : Nat) (hst : 0 < st) (hi : i ∈ strideIndices n st) : i < n := by
  unfold strideIndices at hi
  rw [List.mem_map] at hi
  obtain ⟨k, hk, rfl⟩ := hi
  rw [List.mem_range] at hk
  have h3 : (k + 1) * st ≤ n + st - 1 := (Nat.le_div_iff_mul_le hst).mp hk
  have h4 : k * st + st ≤ n + st - 1 := by
    have : (k + 1) * st = k * st + st := by ring
    omega
  generalize k * st = m at h4 ⊢
  omega

lemma mem_stride_of_lt (n st i : Nat) (hst : 0 < st) (hi : i < n) :
    (i / st) * st ∈ strideIndices n st := by
  unfold strideIndices
  rw [List.mem_map]
  refine ⟨i / st, ?_, rfl⟩
  rw [List.mem_range]
  show i / st + 1 ≤ (n + st - 1) / st
  rw [Nat.le_div_iff_mul_le hst]
  have h1 : (i / st + 1) * st = (i / st) * st + st := by ring
  have h2 : (i / st) * st ≤ i := Nat.div_mul_le_self i st
  omega

lemma filter_join_eq (words : List String) (cs st : Nat) (hcs : 0 < cs) (hst : 0 < st)
    (hw : ∀ w ∈ words, w ≠ "") :
    ((wordSlices words cs st).map (joinWith " ")).filter (fun c => c != "") =
      (wordSlices words cs st).map (joinWith " ") := by
  rw [List.filter_eq_self]
  intro c hc
  rw [List.mem_map] at hc
  obtain ⟨s, hs, rfl⟩ := hc
  unfold wordSlices at hs
  rw [List.mem_map] at hs
  obtain ⟨i, hi, rfl⟩ := hs
  have hin : i < words.length := mem_stride_lt _ _ _ hst hi
  have hdrop : words.drop i ≠ [] := by
    rw [Ne, List.drop_eq_nil_iff]
    omega
  have hslice : (words.drop i).take cs ≠ [] := by
    rw [Ne, List.take_eq_nil_iff]
    rintro (h | h)
    · omega
    · exact hdrop h
  have hwords : ∀ w ∈ (words.drop i).take cs, w ≠ "" := by
    intro w hwmem
    exact hw w (List.mem_of_mem_drop (List.mem_of_mem_take hwmem))
  simpa using joinWith_ne_empty _ hslice hwords

lemma get_mem_drop_take (words : List String) (i0 j cs : Nat) (hj : j < cs)
    (h : i0 + j < words.length) :
    words.get ⟨i0 + j, h⟩ ∈ (words.drop i0).take cs := by
  have h3 : j < ((words.drop i0).take cs).length := by
    simp [List.length_take, List.length_drop]
    omega
  have h4 : ((words.drop i0).take cs).get ⟨j, h3⟩ = words.get ⟨i0 + j, h⟩ := by
    simp [List.get_eq_getElem, List.getElem_take, List.getElem_drop]
  rw [← h4]
  exact List.get_mem _ _ _

/-- Claim C2: chunking any whitespace-split text with
`chunk_size = 500, overlap = 50` yields windows of at most 500 words
each, every original word lands in at least one window, each window is a
contiguous run of the original words (so no word is split across a
boundary), and the empty word list yields the empty sequence rather than
an error. -/
theorem c2_chunk_coverage (words : List String) (hw : ∀ w ∈ words, w ≠ "") :
    ∃ slices : List (List String),
      chunk_text words 500 50 = Except.ok (slices.map (joinWith " ")) ∧
      (∀ s ∈ slices, s.length ≤ 500) ∧
      (∀ i (hi : i < words.length), ∃ s ∈ slices, words.get ⟨i, hi⟩ ∈ s) ∧
      (∀ s ∈ slices, ∃ a b, words = a ++ s ++ b) ∧
      (words = [] → slices = []) := by
  refine ⟨wordSlices words 500 450, ?_, ?_, ?_, ?_, ?_⟩
  · rw [chunk_text_500_50, filter_join_eq words 500 450 (by omega) (by omega) hw]
  · intro s hs
    unfold wordSlices at hs
    rw [List.mem_map] at hs
    obtain ⟨i, _, rfl⟩ := hs
    exact List.length_take_le _ _
  · intro i hi
    refine ⟨(words.drop ((i / 450) * 450)).take 500, ?_, ?_⟩
    · exact List.mem_map_of_mem _ (mem_stride_of_lt words.length 450 i (by omega) hi)
    · have key := get_mem_drop_take words ((i / 450) * 450) (i - (i / 450) * 450) 500
        (by omega) (by omega)
      have hidx : (i / 450) * 450 + (i - (i / 450) * 450) = i := by omega
      simp only [hidx] at key
      exact key
  · intro s hs
    unfold wordSlices at hs
    rw [List.mem_map] at hs
    obtain ⟨i, _, rfl⟩ := hs
    refine ⟨words.take i, (words.drop i).drop 500, ?_⟩
    have h1 : (words.drop i).take 500 ++ (words.drop i).drop 500 = words.drop i :=
      List.take_append_drop _ _
    have h2 : words.take i ++ words.drop i = words := List.take_append_drop _ _
    rw [List.append_assoc, h1, h2]
  · intro hnil
    subst hnil
    rfl

/-- Claim C2 witness: a concrete two-word text, producing one window. -/
theorem c2_chunk_coverage_witness :
    (∀ w ∈ ["alpha", "beta"], w ≠ "") ∧
    (∃ slices : List (List String),
      chunk_text ["alpha", "beta"] 500 50 = Except.ok (slices.map (joinWith " ")) ∧
      (∀ s ∈ slices, s.length ≤ 500) ∧
      (∀ i (hi : i < (["alpha", "beta"] : List String).length),
        ∃ s ∈ slices, (["alpha", "beta"] : List String).get ⟨i, hi⟩ ∈ s) ∧
      (∀ s ∈ slices, ∃ a b, ["alpha", "beta"] = a ++ s ++ b) ∧
      ((["alpha", "beta"] : List String) = [] → slices = [])) :=
  ⟨by decide, c2_chunk_coverage ["alpha", "beta"] (by decide)⟩

/-- Claim C8: for every extracted text of exactly 1200 nonempty words,
`process_url` produces exactly 3 chunks whose metadata list is
`[{url, 0, 3}, {url, 1, 3}, {url, 2, 3}]`: chunk indices 0, 1, 2, each
carrying `total_chunks = 3` and the source url, with as many metadata
entries as chunks. -/
theorem c8_process_url_1200_words (fetchWords : String → Except String (List String))
    (url : String) (words : List String) (hf : fetchWords url = Except.ok words)
    (hlen : words.length = 1200) (hw : ∀ w ∈ words, w ≠ "") :
    ∃ chunks, process_url fetchWords url =
        Except.ok (chunks, [⟨url, 0, 3⟩, ⟨url, 1, 3⟩, ⟨url, 2, 3⟩]) ∧
      chunks.length = 3 ∧
      [(⟨url, 0, 3⟩ : ChunkMeta), ⟨url, 1, 3⟩, ⟨url, 2, 3⟩].length = chunks.length := by
  have hchunks : chunk_text words 500 50 =
      Except.ok ((wordSlices words 500 450).map (joinWith " ")) := by
    rw [chunk_text_500_50, filter_join_eq words 500 450 (by omega) (by omega) hw]
  have hslen : ((wordSlices words 500 450).map (joinWith " ")).length = 3 := by
    simp [wordSlices, strideIndices, hlen]
  refine ⟨(wordSlices words 500 450).map (joinWith " "), ?_, hslen, by simp [hslen]⟩
  simp only [process_url, hf, hchunks, hslen]
  rfl

/-- Claim C8 witness: a 1200-word page of the word "w". -/
theorem c8_process_url_1200_words_witness :
    ((fun _ : String => (Except.ok (List.replicate 1200 "w") : Except String (List String)))
          "https://example.com/a" = Except.ok (List.replicate 1200 "w") ∧
      (List.replicate 1200 "w").length = 1200 ∧
      ∀ w ∈ List.replicate 1200 "w", w ≠ "") ∧
    (∃ chunks,
      process_url
          (fun _ : String => (Except.ok (List.replicate 1200 "w") : Except String (List String)))
          "https://example.com/a" =
        Except.ok (chunks, [⟨"https://example.com/a", 0, 3⟩,
          ⟨"https://example.com/a", 1, 3⟩, ⟨"https://example.com/a", 2, 3⟩]) ∧
      chunks.length = 3 ∧
      [(⟨"https://example.com/a", 0, 3⟩ : ChunkMeta), ⟨"https://example.com/a", 1, 3⟩,
        ⟨"https://example.com/a", 2, 3⟩].length = chunks.length) := by
  have hmem : ∀ w ∈ List.replicate 1200 "w", w ≠ "" := by
    intro w hwm
    rw [List.eq_of_mem_replicate hwm]
    decide
  exact ⟨⟨rfl, by rw [List.length_replicate], hmem⟩,
    c8_process_url_1200_words
      (fun _ => (Except.ok (List.replicate 1200 "w") : Except String (List String)))
      "https://example.com/a" (List.replicate 1200 "w") rfl (by rw [List.length_replicate]) hmem⟩

/-- Claim C4: for a dequeued job whose URL has a record, the worker's
final status write sets `completed` with `chunks_count` equal to the
number of chunks when scraping and vector-store insertion both succeed,
and sets `failed` with the exception text as `error_message` when either
step raises; in every case the job is consumed and nothing is
re-enqueued (the queue is exactly the old tail). -/
theorem c4_worker_terminal_status (s : AppState) (url : String) (rest : List String)
    (scrape : String → Except String (List String × List ChunkMeta))
    (store : List String → List ChunkMeta → String → Except String Unit)
    (t1 t2 : Nat) (r : UrlRecord)
    (hq : s.queue = url :: rest) (hr : get_url_status s.db url = some r) :
    (worker_iteration s scrape store t1 t2).queue = rest ∧
    (∀ chunks metas, scrape url = Except.ok (chunks, metas) →
      store chunks metas url = Except.ok () →
      get_url_status (worker_iteration s scrape store t1 t2).db url =
        some ⟨r.id, r.url, "completed", r.created_at, t2, none, chunks.length⟩) ∧
    (∀ e, scrape url = Except.error e →
      get_url_status (worker_iteration s scrape store t1 t2).db url =
        some ⟨r.id, r.url, "failed", r.created_at, t2, some e, 0⟩) ∧
    (∀ chunks metas e, scrape url = Except.ok (chunks, metas) →
      store chunks metas url = Except.error e →
      get_url_status (worker_iteration s scrape store t1 t2).db url =
        some ⟨r.id, r.url, "failed", r.created_at, t2, some e, 0⟩) := by
  have hurl : r.url = url := get_url_of_some hr
  refine ⟨?_, ?_, ?_, ?_⟩
  · simp only [worker_iteration, hq, dequeue]
    cases hsc : scrape url with
    | error e => simp [hsc]
    | ok p =>
      obtain ⟨chunks, metas⟩ := p
      cases hst : store chunks metas url with
      | error e => simp [hsc, hst]
      | ok u => simp [hsc, hst]
  · intro chunks metas hsc hst
    simp only [worker_iteration, hq, dequeue, hsc, hst]
    rw [get_update, get_update, hr]
    simp [updFn, hurl]
  · intro e hsc
    simp only [worker_iteration, hq, dequeue, hsc]
    rw [get_update, get_update, hr]
    simp [updFn, hurl]
  · intro chunks metas e hsc hst
    simp only [worker_iteration, hq, dequeue, hsc, hst]
    rw [get_update, get_update, hr]
    simp [updFn, hurl]

/-- Claim C4 witness: a one-row store, one queued job, a scraper
returning two chunks, and a vector store that succeeds: the job is
consumed and the record ends `completed` with `chunks_count = 2`. -/
theorem c4_worker_terminal_status_witness :
    ((⟨[⟨1, "https://u", "pending", 0, 0, none, 0⟩], ["https://u"]⟩ : AppState).queue =
        "https://u" :: [] ∧
      get_url_status
        (⟨[⟨1, "https://u", "pending", 0, 0, none, 0⟩], ["https://u"]⟩ : AppState).db
        "https://u" = some ⟨1, "https://u", "pending", 0, 0, none, 0⟩) ∧
    (worker_iteration ⟨[⟨1, "https://u", "pending", 0, 0, none, 0⟩], ["https://u"]⟩
        (fun _ => Except.ok (["c1", "c2"], [⟨"https://u", 0, 2⟩, ⟨"https://u", 1, 2⟩]))
        (fun _ _ _ => Except.ok ()) 1 2).queue = [] ∧
    get_url_status (worker_iteration
        ⟨[⟨1, "https://u", "pending", 0, 0, none, 0⟩], ["https://u"]⟩
        (fun _ => Except.ok (["c1", "c2"], [⟨"https://u", 0, 2⟩, ⟨"https://u", 1, 2⟩]))
        (fun _ _ _ => Except.ok ()) 1 2).db "https://u" =
      some ⟨1, "https://u", "completed", 0, 2, none, 2⟩ := by
  refine ⟨⟨rfl, rfl⟩, ?_, ?_⟩
  · exact (c4_worker_terminal_status
      ⟨[⟨1, "https://u", "pending", 0, 0, none, 0⟩], ["https://u"]⟩ "https://u" []
      (fun _ => Except.ok (["c1", "c2"], [⟨"https://u", 0, 2⟩, ⟨"https://u", 1, 2⟩]))
      (fun _ _ _ => Except.ok ()) 1 2 ⟨1, "https://u", "pending", 0, 0, none, 0⟩ rfl rfl).1
  · exact (c4_worker_terminal_status
      ⟨[⟨1, "https://u", "pending", 0, 0, none, 0⟩], ["https://u"]⟩ "https://u" []
      (fun _ => Except.ok (["c1", "c2"], [⟨"https://u", 0, 2⟩, ⟨"https://u", 1, 2⟩]))
      (fun _ _ _ => Except.ok ()) 1 2 ⟨1, "https://u", "pending", 0, 0, none, 0⟩ rfl rfl).2.1
      ["c1", "c2"] [⟨"https://u", 0, 2⟩, ⟨"https://u", 1, 2⟩] rfl rfl

end AiRA
